import Mathlib

/-!
Verification of `src/train/sensorllm_trainer.py` (repository `sensorllm_code`).

The file is a thin customization layer over the Hugging Face `Trainer`:

* `unwrap_model` recursively unwraps distributed-training containers;
* `SensorLLMTrainer._save` filters out every state-dict entry whose key
  contains the substring `"pt_encoder_backbone"` before delegating to the
  base `_save`;
* `SensorLLMTrainer.save_model` special-cases FSDP (fully sharded) mode,
  collecting the full state dict and writing it only on the coordinating
  process, optionally pushing to the hub;
* `SensorLLMWeightedCELossTrainer` requires `class_weights` at construction
  and computes a class-weighted cross-entropy loss on flattened logits.

A Python `dict` is modelled as an association list `List (String × V)` whose
keys are unique (`Nodup` on the mapped keys where it matters); dictionary
comprehensions preserve insertion order, which the association-list order
models directly.  Python's substring test `needle in hay` is modelled as
`List.IsInfix` on the character lists of the two strings.
-/

namespace SensorLLM

/-- Python's substring containment `needle in hay` on strings: the character
sequence of `needle` occurs contiguously inside that of `hay`. -/
def substrIn (needle hay : String) : Bool :=
  decide (needle.data <:+: hay.data)

/-- The exclusion list `keys_to_match = ['pt_encoder_backbone']` from
`SensorLLMTrainer._save`. -/
def keys_to_match : List String := ["pt_encoder_backbone"]

/-- The dictionary comprehension in `SensorLLMTrainer._save`:
`{k: v for k, v in _state_dict.items() if not any(key_match in k for key_match in keys_to_match)}`.
Iteration over `.items()` is in insertion order and the comprehension keeps
that order, so it is `List.filter` on the association list. -/
def filterStateDict {V : Type} (sd : List (String × V)) : List (String × V) :=
  sd.filter (fun kv => ! keys_to_match.any (fun key_match => substrIn key_match kv.1))

/-- The key predicate of the comprehension, on its own. -/
def keyKept (k : String) : Bool :=
  ! keys_to_match.any (fun key_match => substrIn key_match k)

theorem filterStateDict_eq_filter_keyKept {V : Type} (sd : List (String × V)) :
    filterStateDict sd = sd.filter (fun kv => keyKept kv.1) := rfl

theorem keyKept_iff (k : String) :
    keyKept k = true ↔ ∀ e ∈ keys_to_match, ¬ e.data <:+: k.data := by
  simp [keyKept, keys_to_match, substrIn]

/-- First-match lookup in the filtered dict agrees with the original dict on
every key the filter keeps.  The filter predicate depends only on the key, so
all entries of a kept key survive in order. -/
theorem lookup_filterStateDict {V : Type} (sd : List (String × V)) (k : String)
    (hk : keyKept k = true) :
    (filterStateDict sd).lookup k = sd.lookup k := by
  induction sd with
  | nil => rfl
  | cons kv t ih =>
    by_cases hkeep : keyKept kv.1 = true
    · simp only [filterStateDict, List.filter_cons, keyKept] at hkeep ⊢
      rw [hkeep]
      by_cases hek : kv.1 = k
      · simp [List.lookup, hek]
      · have : (k == kv.1) = false := by
          simp [Ne.symm hek]
        simp [List.lookup, this]
        exact ih
    · have hne : kv.1 ≠ k := fun h => hkeep (h ▸ hk)
      simp only [filterStateDict, List.filter_cons, keyKept] at hkeep ⊢
      rw [Bool.not_eq_true] at hkeep
      rw [hkeep]
      have : (k == kv.1) = false := by
        simp [Ne.symm hne]
      simp [List.lookup, this]
      exact ih

/-- C1.  Filter correctness of `_save`'s dictionary comprehension: an entry is
in the filtered snapshot iff it is in the original snapshot and no element of
the exclusion set `{"pt_encoder_backbone"}` is a substring of its key; lookup
values of retained keys are unchanged; and the filtered snapshot is a sublist
of the original, so insertion order is preserved. -/
theorem filter_correct {V : Type} (sd : List (String × V)) :
    (∀ k v, (k, v) ∈ filterStateDict sd ↔
      ((k, v) ∈ sd ∧ ∀ e ∈ keys_to_match, ¬ e.data <:+: k.data)) ∧
    (∀ k, (∀ e ∈ keys_to_match, ¬ e.data <:+: k.data) →
      (filterStateDict sd).lookup k = sd.lookup k) ∧
    (filterStateDict sd).Sublist sd := by
  refine ⟨?_, ?_, ?_⟩
  · intro k v
    rw [filterStateDict_eq_filter_keyKept, List.mem_filter]
    constructor
    · rintro ⟨hmem, hkept⟩
      exact ⟨hmem, (keyKept_iff k).mp hkept⟩
    · rintro ⟨hmem, hkept⟩
      exact ⟨hmem, (keyKept_iff k).mpr hkept⟩
  · intro k hk
    exact lookup_filterStateDict sd k ((keyKept_iff k).mpr hk)
  · exact List.filter_sublist sd

/-- Witness for C1 at a concrete snapshot. -/
theorem filter_correct_witness :
    ("llm.layer1.weight", 2) ∈
      filterStateDict [("pt_encoder_backbone.layer1.weight", 1), ("llm.layer1.weight", 2)] ∧
    (filterStateDict
        [("pt_encoder_backbone.layer1.weight", 1), ("llm.layer1.weight", 2)]).lookup
        "llm.layer1.weight" =
      [("pt_encoder_backbone.layer1.weight", 1), ("llm.layer1.weight", 2)].lookup
        "llm.layer1.weight" :=
  ⟨((filter_correct [("pt_encoder_backbone.layer1.weight", 1), ("llm.layer1.weight", 2)]).1
      "llm.layer1.weight" 2).mpr ⟨by decide, by decide⟩,
   (filter_correct [("pt_encoder_backbone.layer1.weight", 1), ("llm.layer1.weight", 2)]).2.1
      "llm.layer1.weight" (by decide)⟩

/-- C9.  The state-dict filter of `_save` is idempotent: filtering an
already-filtered snapshot changes nothing. -/
theorem filterStateDict_idem {V : Type} (sd : List (String × V)) :
    filterStateDict (filterStateDict sd) = filterStateDict sd := by
  simp [filterStateDict_eq_filter_keyKept, List.filter_filter]

/-! ## `SensorLLMTrainer._save` and `save_model` as effect traces

The externally visible actions of the two save methods (taking the model
snapshot, calling `super()._save`, pushing to the hub, delegating to the base
`save_model`) are modelled as an effect trace; the base `Trainer` is an opaque
collaborator, so a delegated call is a single effect carrying its arguments. -/

/-- One externally visible step of `_save` / `save_model`. -/
inductive SaveEffect (V : Type) where
  /-- `unwrap_model(self.model)` followed by `model_to_save.state_dict()`:
  the model is accessed and a snapshot is taken. -/
  | snapshotModel : SaveEffect V
  /-- `cpu_state_dict = self.model.state_dict()` inside the scoped
  `FSDP.state_dict_type(..., FULL_STATE_DICT, save_policy)` context. -/
  | collectFullStateDict : SaveEffect V
  /-- `super(SensorLLMTrainer, self)._save(output_dir, filtered_state_dict)`. -/
  | superSave (output_dir : Option String) (sd : List (String × V)) : SaveEffect V
  /-- `self._save(output_dir, state_dict=cpu_state_dict)`. -/
  | saveCall (output_dir : String) (sd : List (String × V)) : SaveEffect V
  /-- `self.push_to_hub(commit_message="Model save")`. -/
  | pushToHub (commit_message : String) : SaveEffect V
  /-- `super().save_model(output_dir, _internal_call)`. -/
  | baseSaveModel (output_dir : Option String) (internal : Bool) : SaveEffect V
deriving DecidableEq

/-- `SensorLLMTrainer._save(output_dir, state_dict)`.  `model_sd` is the
snapshot `unwrap_model(self.model).state_dict()` would return if taken.  The
result is the effect trace paired with the caller's `state_dict` afterwards:
the method only reads `state_dict` (the comprehension builds a fresh dict), so
the mapping is returned as passed. -/
def saveImpl {V : Type} (model_sd : List (String × V))
    (output_dir : Option String) (state_dict : Option (List (String × V))) :
    List (SaveEffect V) × Option (List (String × V)) :=
  match state_dict with
  | none =>
      ([SaveEffect.snapshotModel,
        SaveEffect.superSave output_dir (filterStateDict model_sd)], none)
  | some sd =>
      ([SaveEffect.superSave output_dir (filterStateDict sd)], some sd)

/-- C10.  When `_save` is called with an explicitly supplied `state_dict`, the
caller's mapping is returned unchanged (same keys, order and values), the model
is never snapshotted, and the only effect is the delegated base save on a
freshly filtered dict. -/
theorem save_explicit_state_dict_frame {V : Type} (model_sd sd : List (String × V))
    (output_dir : Option String) :
    (saveImpl model_sd output_dir (some sd)).2 = some sd ∧
    SaveEffect.snapshotModel ∉ (saveImpl model_sd output_dir (some sd)).1 ∧
    (saveImpl model_sd output_dir (some sd)).1 =
      [SaveEffect.superSave output_dir (filterStateDict sd)] := by
  refine ⟨rfl, ?_, rfl⟩
  simp [saveImpl]

/-- The training-arguments fields `save_model` reads. -/
structure TrainerArgs where
  output_dir : String
  should_save : Bool
  push_to_hub : Bool

/-- `SensorLLMTrainer.save_model(output_dir, _internal_call)`.  `fsdp_active`
is `self.fsdp is not None`; `full_sd` is the full state dict the scoped FSDP
collection yields.  In the sharded branch the default output directory is
filled in, the full state dict is collected, `_save` runs only when
`args.should_save`, and the hub push runs only for a user call with the flag
set; otherwise everything is delegated to the base `save_model`. -/
def save_model {V : Type} (fsdp_active : Bool) (args : TrainerArgs)
    (full_sd : List (String × V)) (output_dir : Option String)
    (internal_call : Bool) : List (SaveEffect V) :=
  if fsdp_active then
    let dir := output_dir.getD args.output_dir
    [SaveEffect.collectFullStateDict]
      ++ (if args.should_save then [SaveEffect.saveCall dir full_sd] else [])
      ++ (if args.push_to_hub && !internal_call then
            [SaveEffect.pushToHub "Model save"] else [])
  else
    [SaveEffect.baseSaveModel output_dir internal_call]

/-- C3.  `save_model` as a four-state machine over
`{Sharded, NotSharded} × {IsCoordinator, NotCoordinator}`: a `_save` invocation
occurs iff sharding is active and this process is the coordinator
(`args.should_save`), and then exactly with the collected full state dict and
the resolved output directory; in either non-sharded state the trace is exactly
the delegation to the base `save_model`. -/
theorem save_model_state_machine {V : Type} (fsdp_active : Bool) (args : TrainerArgs)
    (full_sd : List (String × V)) (output_dir : Option String) (internal_call : Bool) :
    (∀ d sd, SaveEffect.saveCall d sd ∈ save_model fsdp_active args full_sd output_dir internal_call ↔
      (fsdp_active = true ∧ args.should_save = true ∧
        d = output_dir.getD args.output_dir ∧ sd = full_sd)) ∧
    (fsdp_active = false ↔
      save_model fsdp_active args full_sd output_dir internal_call =
        [SaveEffect.baseSaveModel output_dir internal_call]) := by
  cases fsdp_active <;>
    cases hss : args.should_save <;>
      cases hp : args.push_to_hub <;>
        cases internal_call <;>
          simp [save_model, hss, hp]

/-- C8.  The hub publish: a `pushToHub` effect occurs in this layer's
`save_model` iff sharding is active, the `push_to_hub` flag is set and the call
is not an internal one; in particular with the flag unset or on an internal
call this layer never publishes. -/
theorem save_model_push_to_hub {V : Type} (fsdp_active : Bool) (args : TrainerArgs)
    (full_sd : List (String × V)) (output_dir : Option String) (internal_call : Bool) :
    ∀ msg, SaveEffect.pushToHub msg ∈ save_model fsdp_active args full_sd output_dir internal_call ↔
      (fsdp_active = true ∧ args.push_to_hub = true ∧ internal_call = false ∧
        msg = "Model save") := by
  cases fsdp_active <;>
    cases hss : args.should_save <;>
      cases hp : args.push_to_hub <;>
        cases internal_call <;>
          simp [save_model, hss, hp]

/-! ## `unwrap_model` -/

/-- A model as `unwrap_model` sees it: either it has a `module` attribute
exposing the inner model it wraps (a distributed-training container), or it is
a bare model, identified by an opaque tag. -/
inductive Model where
  | base (id : Nat) : Model
  | wrapped (module : Model) : Model
deriving DecidableEq

/-- `hasattr(model, "module")`. -/
def Model.hasModule : Model → Bool
  | .wrapped _ => true
  | .base _ => false

/-- `unwrap_model`: if the model has a `module` attribute, recurse into it,
else return the model itself. -/
def unwrap_model : Model → Model
  | .wrapped module => unwrap_model module
  | .base id => .base id

/-- The wrapping depth of a model: the number of container levels around the
innermost model. -/
def Model.depth : Model → Nat
  | .wrapped module => module.depth + 1
  | .base _ => 0

/-- Peeling one wrapping level, `n` times: the reference computation that takes
exactly `n` recursive steps along the `module` relation. -/
def Model.peel : Nat → Model → Model
  | 0, m => m
  | n + 1, .wrapped module => Model.peel n module
  | n + 1, m => Model.peel n m

theorem unwrap_model_wrapped (m : Model) :
    unwrap_model (Model.wrapped m) = unwrap_model m := rfl

/-- C5.  `unwrap_model` terminates on every finitely wrapped model and returns
the innermost model: its result has no further `module` wrapping, it equals
what peeling exactly `depth m` wrapping levels yields, and at depth 0 the
argument is returned unchanged (the function is pure, so it has no side
effects). -/
theorem unwrap_model_correct (m : Model) :
    (unwrap_model m).hasModule = false ∧
    unwrap_model m = Model.peel m.depth m ∧
    (m.depth = 0 → unwrap_model m = m) := by
  induction m with
  | base id => exact ⟨rfl, rfl, fun _ => rfl⟩
  | wrapped module ih =>
    refine ⟨ih.1, ?_, ?_⟩
    · simpa [unwrap_model, Model.depth, Model.peel] using ih.2.1
    · intro h
      simp [Model.depth] at h

/-- Witness for C5 at a concrete doubly wrapped model and at a bare model of
depth 0. -/
theorem unwrap_model_correct_witness :
    (unwrap_model (Model.wrapped (Model.wrapped (Model.base 7)))).hasModule = false ∧
    unwrap_model (Model.wrapped (Model.wrapped (Model.base 7))) =
      Model.peel (Model.wrapped (Model.wrapped (Model.base 7))).depth
        (Model.wrapped (Model.wrapped (Model.base 7))) ∧
    unwrap_model (Model.base 3) = Model.base 3 :=
  ⟨(unwrap_model_correct (Model.wrapped (Model.wrapped (Model.base 7)))).1,
   (unwrap_model_correct (Model.wrapped (Model.wrapped (Model.base 7)))).2.1,
   (unwrap_model_correct (Model.base 3)).2.2 (by decide)⟩

/-! ## `SensorLLMWeightedCELossTrainer` construction -/

/-- The state of a `SensorLLMWeightedCELossTrainer` relevant to the weighted
loss: the stored `self.class_weights`.  Python's `Optional` value is kept as
an `Option` because the field is assigned the optional constructor argument. -/
structure WeightedTrainer (W : Type) where
  class_weights : Option W

/-- `SensorLLMWeightedCELossTrainer.__init__`: `assert class_weights is not
None` raises (modelled as `Except.error` carrying the assertion message)
before any training step; otherwise the argument is stored unchanged in
`self.class_weights`. -/
def weightedInit {W : Type} (class_weights : Option W) :
    Except String (WeightedTrainer W) :=
  match class_weights with
  | none => Except.error "class_weights for SensorLLMWeightedCELossTrainer is None"
  | some w => Except.ok ⟨some w⟩

/-- C4.  Constructing the weighted-loss trainer with `class_weights = None`
fails immediately with the assertion error, before any training step; a
construction satisfying the non-null invariant succeeds and stores
`class_weights` unchanged. -/
theorem weightedInit_guard {W : Type} :
    weightedInit (W := W) none =
      Except.error "class_weights for SensorLLMWeightedCELossTrainer is None" ∧
    ∀ w : W, weightedInit (some w) = Except.ok ⟨some w⟩ :=
  ⟨rfl, fun _ => rfl⟩

/-- `assert self.class_weights is not None` at the top of `compute_loss`. -/
def computeLossAssertPasses {W : Type} (t : WeightedTrainer W) : Bool :=
  t.class_weights.isSome

/-- C7.  For every trainer whose construction succeeded, the runtime assertion
`assert self.class_weights is not None` in `compute_loss` passes: its fatal
branch is unreachable under the construction precondition, since the field is
never reassigned after `__init__`. -/
theorem computeLoss_assert_unreachable {W : Type} (cw : Option W)
    (t : WeightedTrainer W) (h : weightedInit cw = Except.ok t) :
    computeLossAssertPasses t = true := by
  cases cw with
  | none => simp [weightedInit] at h
  | some w =>
      simp only [weightedInit, Except.ok.injEq] at h
      subst h
      rfl

/-- Witness for C7 at a concrete successful construction. -/
theorem computeLoss_assert_unreachable_witness :
    computeLossAssertPasses (WeightedTrainer.mk (W := List Nat) (some [2, 8])) = true :=
  computeLoss_assert_unreachable (some [2, 8]) ⟨some [2, 8]⟩ rfl

/-! ## `compute_loss`: extraction of the labels from the batch inputs -/

/-- `labels = inputs.pop("labels")` on the batch-input dict: the entry keyed
`"labels"` is removed from the mapping and its value returned; a missing key
raises `KeyError`, modelled as `none`.  Python dict keys are unique, so
removing the (first) entry with that key is the whole removal. -/
def popLabels {V : Type} (inputs : List (String × V)) :
    Option (V × List (String × V)) :=
  match inputs.lookup "labels" with
  | none => none
  | some v => some (v, inputs.eraseP (fun kv => kv.1 == "labels"))

/-- The start of `SensorLLMWeightedCELossTrainer.compute_loss`: pop the labels,
then run the model's forward pass (an opaque collaborator `forward`) on the
remaining inputs. -/
def compute_loss_forward {V O : Type} (forward : List (String × V) → O)
    (inputs : List (String × V)) : Option (V × O) :=
  match popLabels inputs with
  | none => none
  | some (labels, rest) => some (labels, forward rest)

theorem lookup_eq_none_of_not_mem {V : Type} (a : String) (l : List (String × V))
    (h : a ∉ l.map Prod.fst) : l.lookup a = none := by
  induction l with
  | nil => rfl
  | cons kv t ih =>
    simp only [List.map_cons, List.mem_cons, not_or] at h
    have hne : (a == kv.1) = false := by simp [h.1]
    simp [List.lookup, hne, ih h.2]

theorem lookup_eraseP_ne {V : Type} (a k : String) (hk : k ≠ a)
    (l : List (String × V)) :
    (l.eraseP (fun kv => kv.1 == a)).lookup k = l.lookup k := by
  induction l with
  | nil => rfl
  | cons kv t ih =>
    by_cases hka : kv.1 = a
    · rw [List.eraseP_cons_of_pos (by simp [hka])]
      have hne : (k == kv.1) = false := by simp [hka, hk]
      simp [List.lookup, hne]
    · rw [List.eraseP_cons_of_neg (by simp [hka])]
      by_cases hkk : k = kv.1
      · simp [List.lookup, hkk]
      · have hne : (k == kv.1) = false := by simp [hkk]
        simp [List.lookup, hne, ih]

theorem lookup_eraseP_self {V : Type} (a : String) (l : List (String × V))
    (hnd : (l.map Prod.fst).Nodup) :
    (l.eraseP (fun kv => kv.1 == a)).lookup a = none := by
  induction l with
  | nil => rfl
  | cons kv t ih =>
    simp only [List.map_cons, List.nodup_cons] at hnd
    by_cases hka : kv.1 = a
    · rw [List.eraseP_cons_of_pos (by simp [hka])]
      exact lookup_eq_none_of_not_mem a t (hka ▸ hnd.1)
    · rw [List.eraseP_cons_of_neg (by simp [hka])]
      have hne : (a == kv.1) = false := by
        simp only [beq_eq_false_iff_ne, ne_eq]
        exact fun h : a = kv.1 => hka h.symm
      simp [List.lookup, hne, ih hnd.2]

/-- C6.  `compute_loss` removes the labels entry from the batch-input mapping
before the forward pass: popping yields the stored labels value and a mapping
that no longer contains the `"labels"` key, agrees with the original mapping
on every other key, and keeps the original order (it is a sublist); the
forward pass is invoked exactly on that label-free mapping. -/
theorem compute_loss_pop_labels {V O : Type} (forward : List (String × V) → O)
    (inputs : List (String × V)) (lv : V)
    (hnd : (inputs.map Prod.fst).Nodup)
    (hl : inputs.lookup "labels" = some lv) :
    ∃ fwd, popLabels inputs = some (lv, fwd) ∧
      compute_loss_forward forward inputs = some (lv, forward fwd) ∧
      fwd.lookup "labels" = none ∧
      (∀ k, k ≠ "labels" → fwd.lookup k = inputs.lookup k) ∧
      fwd.Sublist inputs := by
  refine ⟨inputs.eraseP (fun kv => kv.1 == "labels"), ?_, ?_, ?_, ?_, ?_⟩
  · simp [popLabels, hl]
  · simp [compute_loss_forward, popLabels, hl]
  · exact lookup_eraseP_self "labels" inputs hnd
  · intro k hk
    exact lookup_eraseP_ne "labels" k hk inputs
  · exact List.eraseP_sublist inputs

/-- Witness for C6 at a concrete two-field batch. -/
theorem compute_loss_pop_labels_witness :
    ∃ fwd, popLabels [("input_ids", 10), ("labels", 2)] = some (2, fwd) ∧
      compute_loss_forward id [("input_ids", 10), ("labels", 2)] = some (2, id fwd) ∧
      fwd.lookup "labels" = none ∧
      (∀ k, k ≠ "labels" → fwd.lookup k = [("input_ids", 10), ("labels", 2)].lookup k) ∧
      fwd.Sublist [("input_ids", 10), ("labels", 2)] :=
  compute_loss_pop_labels id [("input_ids", 10), ("labels", 2)] 2
    (by decide) (by decide)

/-! ## `compute_loss`: weighted cross-entropy on flattened tensors

Tensors are idealised over `ℚ` (exact arithmetic in place of machine floats).
A `(B, T, C)` logits tensor is `B` lists of `T` lists of `C` rationals; a
`(B, T)` labels tensor is `B` lists of `T` class indices.  PyTorch stores
tensors row-major, so `view(-1, c)` regroups the linear data into rows of
length `c`, and `view(-1)` on a 2-D tensor is plain concatenation.  Torch's
numerical kernels (`exp`/`log` inside `CrossEntropyLoss`) are external to this
repository, so the loss formula is parametric in the two maps. -/

/-- Row-major regrouping of a linear data list into rows of length `c`:
the semantics of `view(-1, c)` on the flattened data. -/
def chunk {α : Type} (c : Nat) : List α → List (List α)
  | [] => []
  | x :: xs =>
    if c = 0 then []
    else (x :: xs).take c :: chunk c ((x :: xs).drop c)
termination_by l => l.length
decreasing_by
  rename_i hc
  simp only [List.length_drop, List.length_cons]
  omega

/-- `logits.view(-1, c)` on a `(B, T, C)` tensor stored as nested lists. -/
def view_neg1 {α : Type} (c : Nat) (t : List (List (List α))) : List (List α) :=
  chunk c t.flatten.flatten

/-- Regrouping the concatenation of rows of uniform length `c` recovers the
rows: `view(-1, c)` is inverse to row-major flattening. -/
theorem chunk_flatten {α : Type} (c : Nat) (hc : 0 < c) (l : List (List α))
    (h : ∀ r ∈ l, r.length = c) : chunk c l.flatten = l := by
  induction l with
  | nil => simp [chunk]
  | cons r t ih =>
    have hr : r.length = c := h r (by simp)
    have hrne : r ≠ [] := by
      intro heq
      rw [heq] at hr
      simp at hr
      omega
    obtain ⟨x, xs, hx⟩ := List.exists_cons_of_ne_nil hrne
    have hflat : (r :: t).flatten = r ++ t.flatten := List.flatten_cons
    have htake : (r ++ t.flatten).take c = r := by
      rw [← hr]
      exact List.take_left r t.flatten
    have hdrop : (r ++ t.flatten).drop c = t.flatten := by
      rw [← hr]
      exact List.drop_left r t.flatten
    rw [hflat, hx]
    rw [List.cons_append, chunk, if_neg (Nat.pos_iff_ne_zero.mp hc),
      ← List.cons_append, ← hx, htake, hdrop, ih (fun s hs => h s (by simp [hs]))]

/-- The device and dtype of a torch tensor, as far as this layer observes
them. -/
structure TensorMeta where
  device : String
  dtype : String
deriving DecidableEq

/-- `torch.tensor(self.class_weights, device=model.device, dtype=logits.dtype)`:
the weight tensor is materialised on the model's device with the logits'
dtype. -/
def weightTensorMeta (model_device logits_dtype : String) : TensorMeta :=
  ⟨model_device, logits_dtype⟩

/-- One row's contribution to PyTorch `CrossEntropyLoss(weight=w)`: for logits
row `x` and target class `y`, the class weight `w_y` times
`log (Σ_c exp x_c) - x_y` (the negative log-softmax at `y`). -/
def nllRow (exp log : ℚ → ℚ) (w : List ℚ) (x : List ℚ) (y : Nat) : ℚ :=
  w.getD y 0 * (log ((x.map exp).sum) - x.getD y 0)

/-- PyTorch `CrossEntropyLoss(weight=w)` with the default mean reduction on a
batch of rows: the weighted sum of row losses divided by the sum of the
selected class weights. -/
def crossEntropyLossW (exp log : ℚ → ℚ) (w : List ℚ)
    (logits : List (List ℚ)) (labels : List Nat) : ℚ :=
  (((logits.zip labels).map (fun p => nllRow exp log w p.1 p.2)).sum)
    / ((labels.map (fun y => w.getD y 0)).sum)

/-- The model configuration field `compute_loss` reads. -/
structure ModelConfig where
  num_labels : Nat

/-- The loss computation of `SensorLLMWeightedCELossTrainer.compute_loss`:
`loss_fct(logits.view(-1, self.model.config.num_labels), labels.view(-1))`
with `loss_fct = CrossEntropyLoss(weight=torch.tensor(self.class_weights, ...))`. -/
def compute_loss_value (exp log : ℚ → ℚ) (cfg : ModelConfig) (w : List ℚ)
    (logits : List (List (List ℚ))) (labels : List (List Nat)) : ℚ :=
  crossEntropyLossW exp log w (view_neg1 cfg.num_labels logits) labels.flatten

/-- The specification's formula: the same weighted cross-entropy evaluated on
the logits flattened to `(B·T, C)` by concatenating the `B` groups of `T`
rows, and the labels flattened to `(B·T,)`. -/
def spec_flat_cross_entropy (exp log : ℚ → ℚ) (w : List ℚ)
    (logits : List (List (List ℚ))) (labels : List (List Nat)) : ℚ :=
  crossEntropyLossW exp log w logits.flatten labels.flatten

/-- C2.  For logits of shape `(B, T, C)` and labels of shape `(B, T)` with
`C = num_labels` read from the model's configuration, the loss computed by
`compute_loss` equals the standard weighted cross-entropy on the flattened
`(B·T, C)` logits and `(B·T,)` labels, and the materialised weight tensor has
the logits' dtype and (the forward pass producing the logits on the model's
device) the logits' device. -/
theorem compute_loss_flatten_correct (exp log : ℚ → ℚ) (cfg : ModelConfig)
    (w : List ℚ) (logits : List (List (List ℚ))) (labels : List (List Nat))
    (B T : Nat) (hB : logits.length = B) (hT : ∀ r ∈ logits, r.length = T)
    (hC : ∀ r ∈ logits, ∀ x ∈ r, x.length = cfg.num_labels)
    (hlB : labels.length = B) (hlT : ∀ r ∈ labels, r.length = T)
    (hc : 0 < cfg.num_labels)
    (model_device logits_device logits_dtype : String)
    (hdev : logits_device = model_device) :
    compute_loss_value exp log cfg w logits labels =
      spec_flat_cross_entropy exp log w logits labels ∧
    (weightTensorMeta model_device logits_dtype).dtype = logits_dtype ∧
    (weightTensorMeta model_device logits_dtype).device = logits_device := by
  refine ⟨?_, rfl, hdev ▸ rfl⟩
  unfold compute_loss_value spec_flat_cross_entropy view_neg1
  congr 1
  apply chunk_flatten _ hc
  intro r hr
  rw [List.mem_flatten] at hr
  obtain ⟨s, hs, hrs⟩ := hr
  exact hC s hs r hrs

/-- Witness for C2 at a concrete `(1, 2, 2)` logits tensor and `(1, 2)` labels
tensor. -/
theorem compute_loss_flatten_correct_witness :
    compute_loss_value id id ⟨2⟩ [(1 : ℚ) / 2, 2] [[[1, 2], [3, 4]]] [[0, 1]] =
      spec_flat_cross_entropy id id [(1 : ℚ) / 2, 2] [[[1, 2], [3, 4]]] [[0, 1]] ∧
    (weightTensorMeta "cuda:0" "torch.float32").dtype = "torch.float32" ∧
    (weightTensorMeta "cuda:0" "torch.float32").device = "cuda:0" :=
  compute_loss_flatten_correct id id ⟨2⟩ [(1 : ℚ) / 2, 2] [[[1, 2], [3, 4]]] [[0, 1]]
    1 2 (by decide) (by decide) (by decide) (by decide) (by decide) (by decide)
    "cuda:0" "cuda:0" "torch.float32" rfl

end SensorLLM
